import Mathlib

/-!
Verification of the resilient HTTP transport layer of the whooktown Go SDK
(`http.go`, the error types, `options.go` and the client constructor `New`).

The Go code is shallowly embedded:

* JSON values as decoded by Go's `encoding/json` into `interface{}` are the
  inductive `JsonVal`; JSON numbers (Go `float64`) are modelled as rationals,
  and Go's `int(f)` conversion as truncation toward zero (`truncQ`).
* `json.Unmarshal` into the loose error-response struct of `parseHTTPError`
  is `decodeErrResp` (case-insensitive field match via ASCII lowering, later
  duplicate keys overwrite, `null` leaves a field untouched, any type
  mismatch fails the whole decode — the Go caller only checks `err == nil`).
* A raw response body is `GoBody`: empty, non-JSON text, or a JSON value.
* The nondeterministic environment of one HTTP attempt (URL join, body
  marshalling, request construction, the network) is a `ReqEnv`; the
  destination of response decoding is an abstract type `D` with a
  caller-supplied decoder.  `executeRequest` and the retry loop `doRequest`
  mirror the Go control flow statement by statement; the returned `DoOutcome`
  additionally records ghost observations (number of attempts, number of
  network sends, the list of backoff sleeps actually performed).
-/

namespace Whooktown

/-- JSON values as produced by Go's `encoding/json` when decoding into
`interface{}`: numbers are always `float64` (modelled as `ℚ`), objects keep
their fields in order (the list form lets us model Go's
"later duplicate key wins" map semantics). -/
inductive JsonVal where
  | null
  | bool (b : Bool)
  | num (q : Rat)
  | str (s : String)
  | arr (elems : List JsonVal)
  | obj (fields : List (String × JsonVal))
deriving Repr

mutual

/-- Rendering of a JSON value back to text; used only to model
`string(body)` when a body that is valid JSON fails to decode into the
error-response struct.  String escaping is not modelled (no claim depends
on the exact text of such a body). -/
def renderJson : JsonVal → String
  | .null => "null"
  | .bool true => "true"
  | .bool false => "false"
  | .num q => if q.den = 1 then toString q.num else toString q
  | .str s => "\"" ++ s ++ "\""
  | .arr es => "[" ++ renderArr es ++ "]"
  | .obj fs => "\x7b" ++ renderObj fs ++ "\x7d"

def renderArr : List JsonVal → String
  | [] => ""
  | [v] => renderJson v
  | v :: w :: vs => renderJson v ++ "," ++ renderArr (w :: vs)

def renderObj : List (String × JsonVal) → String
  | [] => ""
  | [(k, v)] => "\"" ++ k ++ "\":" ++ renderJson v
  | (k, v) :: f :: fs => "\"" ++ k ++ "\":" ++ renderJson v ++ "," ++ renderObj (f :: fs)

end

/-- Go `int(f)` conversion of a `float64`: truncation toward zero. -/
def truncQ (q : Rat) : Int :=
  if 0 ≤ q then ((q.num.toNat / q.den : Nat) : Int)
  else -(((-q).num.toNat / (-q).den : Nat) : Int)

/-- The anonymous struct `parseHTTPError` decodes the body into:
`Message, Error, Code string; Details map[string]interface{}`.
`details = none` models a nil map (`errResp.Details != nil` is false). -/
structure ErrResp where
  message : String := ""
  error : String := ""
  code : String := ""
  details : Option (List (String × JsonVal)) := none
deriving Repr

/-- Decoding of one object field into the error-response struct, following
`encoding/json`: keys match struct fields case-insensitively (modelled by
ASCII lowering), a `null` value leaves the field untouched, a string field
rejects non-string values, the map field rejects non-objects, and unknown
keys are ignored.  A rejection makes the whole decode fail (`none`), which
is all the Go caller observes. -/
def lowerCode (c : Char) : Nat :=
  if 65 ≤ c.toNat ∧ c.toNat ≤ 90 then c.toNat + 32 else c.toNat

/-- ASCII case-insensitive string equality, approximating the Unicode
simple folding `encoding/json` uses for field-name matching (all field
names involved are ASCII). -/
def eqFold (a b : String) : Bool :=
  a.data.map lowerCode == b.data.map lowerCode

def decodeField (er : ErrResp) (key : String) (v : JsonVal) : Option ErrResp :=
  if eqFold key "message" then
    match v with
    | .str s => some { er with message := s }
    | .null => some er
    | _ => none
  else if eqFold key "error" then
    match v with
    | .str s => some { er with error := s }
    | .null => some er
    | _ => none
  else if eqFold key "code" then
    match v with
    | .str s => some { er with code := s }
    | .null => some er
    | _ => none
  else if eqFold key "details" then
    match v with
    | .obj fs => some { er with details := some (er.details.getD [] ++ fs) }
    | .null => some er
    | _ => none
  else some er

/-- `json.Unmarshal` of a JSON value into the error-response struct:
the top level must be an object (or `null`, which leaves the zero struct). -/
def decodeErrResp : JsonVal → Option ErrResp
  | .null => some {}
  | .obj fs => fs.foldlM (fun er kv => decodeField er kv.1 kv.2) {}
  | _ => none

/-- A raw HTTP response body: empty, non-JSON text, or (the bytes of) a
JSON value. -/
inductive GoBody where
  | empty
  | text (s : String)
  | json (v : JsonVal)
deriving Repr

/-- The body as raw text (`string(body)`); `len(body) > 0` is `raw ≠ ""`. -/
def GoBody.raw : GoBody → String
  | .empty => ""
  | .text s => s
  | .json v => renderJson v

/-- `json.Unmarshal(body, &errResp)` on a raw body: only a body that is
well-formed JSON of the right shape decodes. -/
def goUnmarshalErrResp : GoBody → Option ErrResp
  | .json v => decodeErrResp v
  | _ => none

/-- The closed set of `ErrorCode` string constants of the SDK. -/
inductive ErrorCode where
  | unauthorized
  | forbidden
  | notFound
  | badRequest
  | quotaExceeded
  | internalServer
  | networkError
  | validation
  | timeout
deriving Repr, DecidableEq

/-- The wrapped lower-level cause of an `Error` (`Cause error` in Go);
`noCause` models a nil cause. -/
inductive Cause where
  | noCause
  | joinErr
  | marshalErr
  | newReqErr
  | sendErr
  | readBodyErr
  | decodeErr
  | ctxCanceled
  | deadlineExceeded
deriving Repr, DecidableEq

/-- The SDK `Error` struct. -/
structure Error where
  code : ErrorCode
  message : String := ""
  statusCode : Int := 0
  details : Option (List (String × JsonVal)) := none
  cause : Cause := .noCause
deriving Repr

/-- The SDK `QuotaError` struct. -/
structure QuotaError where
  code : ErrorCode
  message : String := ""
  statusCode : Int := 0
  plan : String := ""
  current : Int := 0
  limit : Int := 0
  quotaType : String := ""
deriving Repr, DecidableEq

/-- A value of Go's `error` interface as returned by this layer: either a
`*Error` or a `*QuotaError`.  The two variants are mutually exclusive by
construction of the sum. -/
inductive SdkError where
  | err (e : Error)
  | quota (q : QuotaError)
deriving Repr

/-- The message carried by either error variant. -/
def SdkError.message : SdkError → String
  | .err e => e.message
  | .quota q => q.message

/-- Go map lookup on the decoded `details` map: with duplicate JSON keys the
later value overwrites, so the last matching entry wins. -/
def jLookup (fs : List (String × JsonVal)) (k : String) : Option JsonVal :=
  ((fs.filter (fun kv => kv.1 == k)).getLast?).map (fun kv => kv.2)

/-- The `switch statusCode` at the end of `parseHTTPError`: sets the error
code from the status and fills in the default message only when no message
was extracted from the body. -/
def statusDefault (e : Error) (statusCode : Int) : Error :=
  if statusCode = 401 then
    { e with code := .unauthorized,
             message := if e.message = "" then "unauthorized" else e.message }
  else if statusCode = 403 then
    { e with code := .forbidden,
             message := if e.message = "" then "forbidden" else e.message }
  else if statusCode = 404 then
    { e with code := .notFound,
             message := if e.message = "" then "not found" else e.message }
  else if statusCode = 400 then
    { e with code := .badRequest,
             message := if e.message = "" then "bad request" else e.message }
  else if statusCode = 402 then
    { e with code := .quotaExceeded,
             message := if e.message = "" then "quota exceeded" else e.message }
  else
    { e with code := .internalServer,
             message := if e.message = "" then "server error: " ++ toString statusCode
                        else e.message }

/-- `parseHTTPError` from `http.go`: converts a terminal HTTP status and raw
body into a classified SDK error. -/
def parseHTTPError (statusCode : Int) (body : GoBody) : SdkError :=
  match goUnmarshalErrResp body with
  | some errResp =>
    let msg := if errResp.message ≠ "" then errResp.message
               else if errResp.error ≠ "" then errResp.error
               else ""
    if errResp.code = "QUOTA_EXCEEDED" ∨ errResp.code = "ASSET_QUOTA_EXCEEDED" ∨
        errResp.code = "LAYOUT_QUOTA_EXCEEDED" then
      let qe : QuotaError :=
        { code := .quotaExceeded, message := msg, statusCode := statusCode }
      let qe := match errResp.details with
        | none => qe
        | some ds =>
          let qe := match jLookup ds "plan" with
            | some (.str s) => { qe with plan := s }
            | _ => qe
          let qe := match jLookup ds "current" with
            | some (.num q) => { qe with current := truncQ q }
            | _ => qe
          let qe := match jLookup ds "limit" with
            | some (.num q) => { qe with limit := truncQ q }
            | _ => qe
          let qe := match jLookup ds "type" with
            | some (.str s) => { qe with quotaType := s }
            | _ => qe
          qe
      .quota qe
    else
      .err (statusDefault
        { code := .internalServer, message := msg, statusCode := statusCode,
          details := errResp.details } statusCode)
  | none =>
    let msg := if body.raw ≠ "" then body.raw else ""
    .err (statusDefault
      { code := .internalServer, message := msg, statusCode := statusCode,
        details := none } statusCode)

/-- One nanosecond-denominated second (`time.Second`); `time.Duration` is a
64-bit nanosecond count, modelled as `Int` (no computation here overflows). -/
def timeSecond : Int := 1000000000

/-- `strings.TrimSuffix`, written over the character list so that it
reduces in the kernel (the URLs involved are ASCII, so character count
and Go's byte count agree). -/
def trimSuffix (s suffix : String) : String :=
  if suffix.data.isSuffixOf s.data
  then String.mk (s.data.take (s.data.length - suffix.data.length))
  else s

/-- The `httpClient` struct of `http.go`.  The underlying `*http.Client`
connection engine is opaque to every claim and is not modelled. -/
structure HttpClient where
  baseURL : String
  token : String := ""
  adminToken : String := ""
  debug : Bool := false
  maxRetries : Nat := 0
  retryWait : Int := 0
deriving Repr, DecidableEq

/-- `newHTTPClient`: trims a trailing slash and hard-codes the retry policy. -/
def newHTTPClient (baseURL : String) : HttpClient :=
  { baseURL := trimSuffix baseURL "/", maxRetries := 3, retryWait := timeSecond }

/-- `SetToken`. -/
def HttpClient.setToken (c : HttpClient) (t : String) : HttpClient :=
  { c with token := t }

/-- `SetAdminToken`. -/
def HttpClient.setAdminToken (c : HttpClient) (t : String) : HttpClient :=
  { c with adminToken := t }

/-- Outcome of the network portion of one attempt: `client.Do` fails,
`io.ReadAll` fails, or a response with a status and a body arrives. -/
inductive NetOutcome where
  | sendFail
  | readFail
  | resp (status : Int) (body : GoBody)

/-- The deterministic-per-call environment of `executeRequest` for a fixed
`(method, path, body, result)` quadruple: whether `url.JoinPath` succeeds,
how the body marshals (`none` = nil body; `some none` = `json.Marshal`
fails; `some (some s)` = payload bytes), whether request construction
succeeds, the network outcome of the `a`-th send, and the JSON decoder
into the caller's destination type `D` (`none` = `json.Unmarshal` error). -/
structure ReqEnv (D : Type) where
  joinOk : Bool := true
  marshal : Option (Option String) := none
  newReqOk : Bool := true
  net : Nat → NetOutcome
  dec : GoBody → D → Option D

/-- Result of one `executeRequest` attempt: the Go return error (`none` =
nil), the destination value afterwards, and how many network sends
happened (0 or 1). -/
structure AttemptOut (D : Type) where
  err : Option SdkError
  dest : Option D
  netCalls : Nat

/-- `executeRequest` from `http.go`, for attempt index `a`.  On a failure
before or during decoding the destination is returned unchanged (Go's
partial mutation of the destination by a failed `json.Unmarshal` is not
observable through any claim). -/
def executeRequest {D : Type} (env : ReqEnv D) (path : String) (a : Nat)
    (dest : Option D) : AttemptOut D :=
  if env.joinOk = false then
    ⟨some (.err { code := .validation, message := "invalid path: " ++ path,
                  cause := .joinErr }), dest, 0⟩
  else if env.marshal = some none then
    ⟨some (.err { code := .validation, message := "failed to marshal request body",
                  cause := .marshalErr }), dest, 0⟩
  else if env.newReqOk = false then
    ⟨some (.err { code := .networkError, message := "failed to create request",
                  cause := .newReqErr }), dest, 0⟩
  else
    match env.net a with
    | .sendFail =>
      ⟨some (.err { code := .networkError, message := "request failed",
                    cause := .sendErr }), dest, 1⟩
    | .readFail =>
      ⟨some (.err { code := .networkError, message := "failed to read response body",
                    cause := .readBodyErr }), dest, 1⟩
    | .resp status body =>
      if 400 ≤ status then
        ⟨some (parseHTTPError status body), dest, 1⟩
      else
        match dest with
        | some d =>
          if body.raw ≠ "" then
            match env.dec body d with
            | some d2 => ⟨none, some d2, 1⟩
            | none =>
              ⟨some (.err { code := .internalServer, message := "failed to parse response",
                            cause := .decodeErr }), dest, 1⟩
          else ⟨none, some d, 1⟩
        | none => ⟨none, none, 1⟩

/-- The caller's context: whether `ctx.Done()` wins the race against the
backoff timer before attempt `a`, and the value of `ctx.Err()` then. -/
structure Ctx where
  cancelDuringWait : Nat → Bool
  ctxErr : Cause := .ctxCanceled

/-- A `Ctx` that is never cancelled. -/
def noCancel : Ctx := { cancelDuringWait := fun _ => false }

/-- Observable outcome of `doRequest`: the returned error (`none` = nil),
the destination value, and ghost instrumentation of the loop — how many
times `executeRequest` ran, how many network sends happened, and the list
of backoff sleeps actually performed (in nanoseconds, in order). -/
structure DoOutcome (D : Type) where
  err : Option SdkError
  dest : Option D
  attempts : Nat
  netCalls : Nat
  waits : List Int

/-- The `err.(*Error)` type assertion followed by the 4xx range check in
`doRequest`: a `*QuotaError` never matches the assertion. -/
def isClientError : SdkError → Bool
  | .err e => decide (400 ≤ e.statusCode ∧ e.statusCode < 500)
  | .quota _ => false

/-- The retry loop of `doRequest`, unrolled from attempt index `a` with
`remaining` loop iterations left, carrying `lastErr` and the ghost
counters. -/
def doRequestFrom {D : Type} (c : HttpClient) (ctx : Ctx) (env : ReqEnv D)
    (path : String) (a : Nat) (remaining : Nat) (lastErr : Option SdkError)
    (dest : Option D) (attempts netCalls : Nat) (waits : List Int) : DoOutcome D :=
  match remaining with
  | 0 =>
    ⟨lastErr, dest, attempts, netCalls, waits⟩
  | r + 1 =>
    if 0 < a ∧ ctx.cancelDuringWait a then
      ⟨some (.err { code := .timeout, message := "request cancelled",
                    cause := ctx.ctxErr }), dest, attempts, netCalls, waits⟩
    else
      let waits' := if 0 < a then waits ++ [c.retryWait * (a : Int)] else waits
      let o := executeRequest env path a dest
      match o.err with
      | none => ⟨none, o.dest, attempts + 1, netCalls + o.netCalls, waits'⟩
      | some e =>
        if isClientError e then
          ⟨some e, o.dest, attempts + 1, netCalls + o.netCalls, waits'⟩
        else
          doRequestFrom c ctx env path (a + 1) r (some e) o.dest (attempts + 1)
            (netCalls + o.netCalls) waits'
termination_by structural remaining

/-- `doRequest` from `http.go`: the retry loop over attempt indices
`0 .. c.maxRetries`. -/
def doRequest {D : Type} (c : HttpClient) (ctx : Ctx) (env : ReqEnv D)
    (path : String) (dest : Option D) : DoOutcome D :=
  doRequestFrom c ctx env path 0 (c.maxRetries + 1) none dest 0 0 []

/-- The deployment environment of `options.go`. -/
inductive Env where
  | prod
  | dev

/-- The `Config` struct of `options.go`.  The injectable `*http.Client` is
kept only as a presence flag (its internals matter to no claim). -/
structure Config where
  authURL : String := ""
  sensorURL : String := ""
  uiURL : String := ""
  workflowURL : String := ""
  backofficeURL : String := ""
  sseURL : String := ""
  subscriptionURL : String := ""
  audioStreamURL : String := ""
  token : String := ""
  adminSecret : String := ""
  timeout : Int := 0
  maxRetries : Int := 0
  retryWait : Int := 0
  hasHTTPClient : Bool := false
  debug : Bool := false
deriving Repr, DecidableEq

/-- `configForEnvironment` from `options.go`. -/
def configForEnvironment (env : Env) : Config :=
  let cfg : Config := { timeout := 30 * timeSecond, maxRetries := 3,
                        retryWait := timeSecond }
  match env with
  | .dev =>
    { cfg with
      authURL := "https://auth.dev.whook.town",
      sensorURL := "https://sensors.dev.whook.town",
      uiURL := "https://api.dev.whook.town",
      workflowURL := "https://api.dev.whook.town",
      backofficeURL := "https://admin.dev.whook.town",
      sseURL := "https://ws.dev.whook.town",
      subscriptionURL := "https://subscription.dev.whook.town",
      audioStreamURL := "https://stream.dev.whook.town" }
  | .prod =>
    { cfg with
      authURL := "https://auth.whook.town",
      sensorURL := "https://sensors.whook.town",
      uiURL := "https://api.whook.town",
      workflowURL := "https://api.whook.town",
      backofficeURL := "https://admin.whook.town",
      sseURL := "https://ws.whook.town",
      subscriptionURL := "https://subscription.whook.town",
      audioStreamURL := "https://stream.whook.town" }

/-- The `WithRetry` option from `options.go`. -/
def WithRetry (maxRetries : Int) (retryWait : Int) : Config → Config :=
  fun c => { c with maxRetries := maxRetries, retryWait := retryWait }

/-- The `Client` struct: the applied configuration and the per-service
transports (`Camera`, `Traffic`, `Popup`, `Groups` share the UI transport). -/
structure Client where
  config : Config
  auth : HttpClient
  sensors : HttpClient
  ui : HttpClient
  camera : HttpClient
  traffic : HttpClient
  popup : HttpClient
  groups : HttpClient
  workflow : HttpClient
  backoffice : HttpClient
deriving Repr, DecidableEq

/-- `New` from the client constructor: defaults from the environment, apply
the options in order, build one transport per service (`cfg.validate()`
always returns nil, so construction never fails). -/
def New (env : Env) (opts : List (Config → Config)) : Client :=
  let cfg := opts.foldl (fun c o => o c) (configForEnvironment env)
  let authHTTP := (newHTTPClient cfg.authURL).setToken cfg.token
  let sensorHTTP := (newHTTPClient cfg.sensorURL).setToken cfg.token
  let uiHTTP := (newHTTPClient cfg.uiURL).setToken cfg.token
  let workflowHTTP := (newHTTPClient cfg.workflowURL).setToken cfg.token
  let backofficeHTTP := (newHTTPClient cfg.backofficeURL).setAdminToken cfg.adminSecret
  { config := cfg,
    auth := authHTTP, sensors := sensorHTTP, ui := uiHTTP,
    camera := uiHTTP, traffic := uiHTTP, popup := uiHTTP, groups := uiHTTP,
    workflow := workflowHTTP, backoffice := backofficeHTTP }

/-! ## Helper observations about single attempts and the retry loop -/

/-- The error (if any) that attempt `a` of a call in environment `env`
produces. -/
def attemptErr {D : Type} (env : ReqEnv D) (path : String) (dest : Option D)
    (a : Nat) : Option SdkError :=
  (executeRequest env path a dest).err

/-- Attempt `a` fails with an error that the retry loop treats as
retryable (it is not a generic error with a 4xx status). -/
def retryableFailure {D : Type} (env : ReqEnv D) (path : String)
    (dest : Option D) (a : Nat) : Prop :=
  ∃ e, attemptErr env path dest a = some e ∧ isClientError e = false

/-- Network sends performed by attempts `a, a+1, …, a+j-1`. -/
def netSeg {D : Type} (env : ReqEnv D) (path : String) (dest : Option D)
    (a j : Nat) : Nat :=
  ((List.range j).map (fun i => (executeRequest env path (a + i) dest).netCalls)).sum

/-- The backoff sleeps the loop performs before attempts
`a, a+1, …, a+j-1` (no sleep before attempt `0`). -/
def waitsSeg (w : Int) : Nat → Nat → List Int
  | _, 0 => []
  | a, j + 1 => (if 0 < a then [w * (a : Int)] else []) ++ waitsSeg w (a + 1) j

theorem netSeg_succ_front {D : Type} (env : ReqEnv D) (path : String)
    (dest : Option D) (a n : Nat) :
    netSeg env path dest a (n + 1) =
      (executeRequest env path a dest).netCalls + netSeg env path dest (a + 1) n := by
  have hfg : ((fun i => (executeRequest env path (a + i) dest).netCalls) ∘ Nat.succ) =
      fun i => (executeRequest env path (a + 1 + i) dest).netCalls := by
    funext i
    simp only [Function.comp_apply]
    congr 2
    omega
  simp only [netSeg, List.range_succ_eq_map, List.map_cons, List.sum_cons,
    List.map_map, Nat.add_zero, hfg]

theorem waitsSeg_pos (w : Int) :
    ∀ j a, 0 < a →
      waitsSeg w a j = (List.range j).map (fun i : Nat => w * ((a + i : Nat) : Int)) := by
  intro j
  induction j with
  | zero => intro a _; simp [waitsSeg]
  | succ n ih =>
    intro a ha
    have hfg : ((fun i : Nat => w * ((a + i : Nat) : Int)) ∘ Nat.succ) =
        fun i : Nat => w * ((a + 1 + i : Nat) : Int) := by
      funext i
      simp only [Function.comp_apply]
      congr 2
      omega
    rw [List.range_succ_eq_map]
    simp only [waitsSeg, if_pos ha, List.map_cons, List.map_map, hfg,
      List.singleton_append, ih (a + 1) (Nat.succ_pos a)]
    simp

/-- Every branch of an attempt either leaves the destination untouched or
succeeds. -/
theorem executeRequest_dest_spec {D : Type} (env : ReqEnv D) (path : String)
    (a : Nat) (dest : Option D) :
    (executeRequest env path a dest).dest = dest ∨
      (executeRequest env path a dest).err = none := by
  unfold executeRequest
  (repeat' split) <;> first | exact Or.inl rfl | exact Or.inr rfl

/-- A failed attempt leaves the destination untouched. -/
theorem executeRequest_fail_dest {D : Type} (env : ReqEnv D) (path : String)
    (a : Nat) (dest : Option D) (e : SdkError)
    (h : (executeRequest env path a dest).err = some e) :
    (executeRequest env path a dest).dest = dest := by
  rcases executeRequest_dest_spec env path a dest with hd | hn
  · exact hd
  · rw [hn] at h
    cases h

/-- Unfolding of one loop iteration on a retryably-failing attempt. -/
theorem doRequestFrom_step_fail {D : Type} (c : HttpClient) (ctx : Ctx)
    (env : ReqEnv D) (path : String) (a r : Nat) (lastErr : Option SdkError)
    (dest : Option D) (attempts netCalls : Nat) (waits : List Int) (e : SdkError)
    (hnc : ¬ ctx.cancelDuringWait a = true)
    (he : (executeRequest env path a dest).err = some e)
    (hce : isClientError e = false) :
    doRequestFrom c ctx env path a (r + 1) lastErr dest attempts netCalls waits =
      doRequestFrom c ctx env path (a + 1) r (some e) dest (attempts + 1)
        (netCalls + (executeRequest env path a dest).netCalls)
        (if 0 < a then waits ++ [c.retryWait * (a : Int)] else waits) := by
  have hdest : (executeRequest env path a dest).dest = dest :=
    executeRequest_fail_dest env path a dest e he
  conv_lhs => rw [doRequestFrom]
  rw [if_neg (by simp [hnc] : ¬ (0 < a ∧ ctx.cancelDuringWait a = true))]
  simp only [he, hce, hdest, Bool.false_eq_true, if_false]

/-- Running the loop through `j` consecutive retryably-failing attempts
(with no cancellation observed at their backoffs) advances the loop state
by `j` attempts. -/
theorem doRequestFrom_progress {D : Type} (c : HttpClient) (ctx : Ctx)
    (env : ReqEnv D) (path : String) (j : Nat) :
    ∀ (a r : Nat) (lastErr : Option SdkError) (dest : Option D)
      (attempts netCalls : Nat) (waits : List Int),
    (∀ i, a ≤ i → i < a + j → retryableFailure env path dest i) →
    (∀ i, a ≤ i → i < a + j → ¬ ctx.cancelDuringWait i = true) →
    doRequestFrom c ctx env path a (j + r) lastErr dest attempts netCalls waits =
      doRequestFrom c ctx env path (a + j) r
        (if j = 0 then lastErr else attemptErr env path dest (a + j - 1))
        dest (attempts + j) (netCalls + netSeg env path dest a j)
        (waits ++ waitsSeg c.retryWait a j) := by
  induction j with
  | zero =>
    intro a r lastErr dest attempts netCalls waits _ _
    simp [netSeg, waitsSeg]
  | succ n ih =>
    intro a r lastErr dest attempts netCalls waits hfail hnc
    obtain ⟨e, he, hce⟩ := hfail a (Nat.le_refl a) (by omega)
    have hnca : ¬ ctx.cancelDuringWait a = true := hnc a (Nat.le_refl a) (by omega)
    have h1 : n + 1 + r = (n + r) + 1 := by omega
    rw [h1, doRequestFrom_step_fail c ctx env path a (n + r) lastErr dest attempts
      netCalls waits e hnca he hce]
    rw [ih (a + 1) r (some e) dest (attempts + 1)
      (netCalls + (executeRequest env path a dest).netCalls)
      (if 0 < a then waits ++ [c.retryWait * (a : Int)] else waits)
      (fun i h1 h2 => hfail i (by omega) (by omega))
      (fun i h1 h2 => hnc i (by omega) (by omega))]
    have hlast : (if n = 0 then some e else attemptErr env path dest (a + 1 + n - 1)) =
        attemptErr env path dest (a + (n + 1) - 1) := by
      rcases Nat.eq_zero_or_pos n with hn | hn
      · subst hn; simpa using he.symm
      · rw [if_neg (by omega)]; congr 1; omega
    have hatt : attempts + 1 + n = attempts + (n + 1) := by omega
    have hnet : netCalls + (executeRequest env path a dest).netCalls +
        netSeg env path dest (a + 1) n = netCalls + netSeg env path dest a (n + 1) := by
      rw [netSeg_succ_front]; omega
    have hw : (if 0 < a then waits ++ [c.retryWait * (a : Int)] else waits) ++
        waitsSeg c.retryWait (a + 1) n = waits ++ waitsSeg c.retryWait a (n + 1) := by
      rcases Nat.eq_zero_or_pos a with hz | hp
      · subst hz
        simp [waitsSeg]
      · rw [if_pos hp]
        simp [waitsSeg, if_pos hp, List.append_assoc]
    have ha : a + 1 + n = a + (n + 1) := by omega
    rw [hlast, hatt, hnet, hw, ha, if_neg (Nat.succ_ne_zero n)]

/-- If every attempt fails retryably and the context is never cancelled,
the loop runs through all `maxRetries + 1` attempts and returns the last
attempt's error. -/
theorem doRequest_all_fail {D : Type} (c : HttpClient) (ctx : Ctx) (env : ReqEnv D)
    (path : String) (dest : Option D)
    (hfail : ∀ i, i ≤ c.maxRetries → retryableFailure env path dest i)
    (hcancel : ∀ i, ¬ ctx.cancelDuringWait i = true) :
    doRequest c ctx env path dest =
      ⟨attemptErr env path dest c.maxRetries, dest, c.maxRetries + 1,
       netSeg env path dest 0 (c.maxRetries + 1),
       waitsSeg c.retryWait 0 (c.maxRetries + 1)⟩ := by
  have h := doRequestFrom_progress c ctx env path (c.maxRetries + 1) 0 0 none dest 0 0 []
    (fun i _ h2 => hfail i (by omega)) (fun i _ _ => hcancel i)
  simp only [Nat.add_zero, Nat.zero_add, List.nil_append,
    if_neg (Nat.succ_ne_zero c.maxRetries), Nat.add_sub_cancel] at h
  exact h

/-- `waitsSeg` starting at attempt `0`: the first attempt sleeps nothing,
then the `i`-th sleep is `w * (1 + i)`. -/
theorem waitsSeg_zero (w : Int) (m : Nat) :
    waitsSeg w 0 (m + 1) = (List.range m).map (fun i : Nat => w * ((1 + i : Nat) : Int)) := by
  show (if 0 < 0 then [w * ((0 : Nat) : Int)] else []) ++ waitsSeg w 1 m = _
  rw [if_neg (by omega), List.nil_append, waitsSeg_pos w m 1 (by omega)]


/-! ## Concrete scenario environments (used by evaluation and witness theorems) -/

/-- A server that always replies 500 with an empty body. -/
def env500 : ReqEnv Unit :=
  { net := fun _ => .resp 500 .empty, dec := fun _ d => some d }

/-- A server that always replies 402 with body
`\x7b"code":"QUOTA_EXCEEDED"\x7d`. -/
def env402quota : ReqEnv Unit :=
  { net := fun _ => .resp 402 (.json (.obj [("code", .str "QUOTA_EXCEEDED")])),
    dec := fun _ d => some d }

/-- A call whose body value cannot be marshalled to JSON. -/
def envMarshalFail : ReqEnv Unit :=
  { marshal := some none, net := fun _ => .sendFail, dec := fun _ d => some d }

/-- A context cancelled while the backoff before the second retry
(attempt index 2) is pending. -/
def ctxCancelAt2 : Ctx := { cancelDuringWait := fun a => a == 2 }

/-! ## Claim theorems -/

/-- C1: the claim states that every classified error with status in
[400,500) — the specialized quota variant for a 402 included — is returned
immediately with no further attempts.  The code violates this for the quota
variant: the `err.(*Error)` type assertion in `doRequest` does not match a
`*QuotaError`, so a 402 carrying a quota `code` is retried like a server
error.  This theorem evaluates the transport at that failing input: against
a server that always answers 402 with `code: "QUOTA_EXCEEDED"`, all four
attempts run, all three backoff sleeps happen, and the quota error is only
returned after exhaustion. -/
theorem c1_quota402_is_retried_eval :
    (doRequest (newHTTPClient "https://api.whook.town") noCancel env402quota
        "/assets" (none : Option Unit)).attempts = 4 ∧
    (doRequest (newHTTPClient "https://api.whook.town") noCancel env402quota
        "/assets" (none : Option Unit)).waits =
      [timeSecond, 2 * timeSecond, 3 * timeSecond] ∧
    (doRequest (newHTTPClient "https://api.whook.town") noCancel env402quota
        "/assets" (none : Option Unit)).err =
      some (.quota { code := .quotaExceeded, message := "", statusCode := 402 }) :=
  ⟨by decide, by decide, by rfl⟩

/-- C3: against a server whose every attempt fails retryably (5xx or
network failure), the loop performs exactly `maxRetries + 1` attempts,
sleeps `retryWait * a` before attempt `a > 0` (linear backoff), and returns
the last attempt's error. -/
theorem c3_retry_exhaustion {D : Type} (c : HttpClient) (ctx : Ctx) (env : ReqEnv D)
    (path : String) (dest : Option D)
    (hfail : ∀ i, i ≤ c.maxRetries → retryableFailure env path dest i)
    (hcancel : ∀ i, ¬ ctx.cancelDuringWait i = true) :
    (doRequest c ctx env path dest).err = attemptErr env path dest c.maxRetries ∧
    (doRequest c ctx env path dest).attempts = c.maxRetries + 1 ∧
    (doRequest c ctx env path dest).waits =
      (List.range c.maxRetries).map (fun i : Nat => c.retryWait * ((1 + i : Nat) : Int)) := by
  rw [doRequest_all_fail c ctx env path dest hfail hcancel]
  exact ⟨rfl, rfl, waitsSeg_zero c.retryWait c.maxRetries⟩

/-- C3 witness: a `newHTTPClient` transport (`maxRetries = 3`) against a
server that always answers 500 performs exactly 4 attempts, waits
1s, 2s, 3s, and surfaces the 500 classified error. -/
theorem c3_retry_exhaustion_witness :
    (doRequest (newHTTPClient "https://api.whook.town") noCancel env500 "/x"
        (none : Option Unit)).err =
      some (.err { code := .internalServer, message := "server error: 500",
                   statusCode := 500 }) ∧
    (doRequest (newHTTPClient "https://api.whook.town") noCancel env500 "/x"
        (none : Option Unit)).attempts = 4 ∧
    (doRequest (newHTTPClient "https://api.whook.town") noCancel env500 "/x"
        (none : Option Unit)).waits = [timeSecond, 2 * timeSecond, 3 * timeSecond] := by
  have h := c3_retry_exhaustion (newHTTPClient "https://api.whook.town") noCancel env500
    "/x" (none : Option Unit)
    (fun i _ => ⟨.err { code := .internalServer, message := "server error: 500",
                        statusCode := 500 }, rfl, rfl⟩)
    (fun i => by simp [noCancel])
  refine ⟨h.1.trans (by rfl), h.2.1, h.2.2.trans (by decide)⟩

/-- C4: cancelling the context while the loop is waiting out the backoff
before attempt `k` aborts immediately: the timeout-kind error wrapping the
context's cancellation cause is returned, attempt `k` (and everything after
it) never runs, and the pending `k`-th backoff sleep is not performed. -/
theorem c4_cancel_during_backoff {D : Type} (c : HttpClient) (ctx : Ctx)
    (env : ReqEnv D) (path : String) (dest : Option D) (k : Nat)
    (hk1 : 1 ≤ k) (hk2 : k ≤ c.maxRetries)
    (hfail : ∀ i, i < k → retryableFailure env path dest i)
    (hnc : ∀ i, i < k → ¬ ctx.cancelDuringWait i = true)
    (hc : ctx.cancelDuringWait k = true) :
    (doRequest c ctx env path dest).err =
      some (.err { code := .timeout, message := "request cancelled", statusCode := 0,
                   details := none, cause := ctx.ctxErr }) ∧
    (doRequest c ctx env path dest).attempts = k ∧
    (doRequest c ctx env path dest).waits =
      (List.range (k - 1)).map (fun i : Nat => c.retryWait * ((1 + i : Nat) : Int)) := by
  obtain ⟨r, hr⟩ : ∃ r, c.maxRetries + 1 = k + (r + 1) := ⟨c.maxRetries - k, by omega⟩
  have h := doRequestFrom_progress c ctx env path k 0 (r + 1) none dest 0 0 []
    (fun i _ h2 => hfail i (by omega)) (fun i _ h2 => hnc i (by omega))
  have hmain : doRequest c ctx env path dest =
      ⟨some (.err { code := .timeout, message := "request cancelled", statusCode := 0,
                    details := none, cause := ctx.ctxErr }), dest, k,
       netSeg env path dest 0 k, waitsSeg c.retryWait 0 k⟩ := by
    unfold doRequest
    rw [hr, h]
    simp only [Nat.zero_add, List.nil_append]
    conv_lhs => rw [doRequestFrom]
    rw [if_pos ⟨by omega, hc⟩]
  rw [hmain]
  refine ⟨rfl, rfl, ?_⟩
  obtain ⟨m, hm⟩ : ∃ m, k = m + 1 := ⟨k - 1, by omega⟩
  subst hm
  simp only [Nat.add_sub_cancel]
  exact waitsSeg_zero c.retryWait m

/-- C4 witness: cancellation firing during the backoff before attempt 2,
against an always-500 server, surfaces the timeout error after exactly 2
attempts and only the first backoff sleep. -/
theorem c4_cancel_during_backoff_witness :
    (doRequest (newHTTPClient "https://api.whook.town") ctxCancelAt2 env500 "/x"
        (none : Option Unit)).err =
      some (.err { code := .timeout, message := "request cancelled", statusCode := 0,
                   details := none, cause := .ctxCanceled }) ∧
    (doRequest (newHTTPClient "https://api.whook.town") ctxCancelAt2 env500 "/x"
        (none : Option Unit)).attempts = 2 ∧
    (doRequest (newHTTPClient "https://api.whook.town") ctxCancelAt2 env500 "/x"
        (none : Option Unit)).waits = [timeSecond] := by
  have h := c4_cancel_during_backoff (newHTTPClient "https://api.whook.town") ctxCancelAt2
    env500 "/x" (none : Option Unit) 2 (by omega) (by decide)
    (fun i _ => ⟨.err { code := .internalServer, message := "server error: 500",
                        statusCode := 500 }, rfl, rfl⟩)
    (fun i hi => by interval_cases i <;> decide)
    (by decide)
  exact ⟨h.1, h.2.1, h.2.2.trans (by decide)⟩

/-- The outcome of a single attempt when the URL joins but the body fails
to marshal: the validation error, no network send. -/
theorem executeRequest_marshal_fail {D : Type} (env : ReqEnv D) (path : String)
    (a : Nat) (dest : Option D) (hj : env.joinOk = true)
    (hm : env.marshal = some none) :
    executeRequest env path a dest =
      ⟨some (.err { code := .validation, message := "failed to marshal request body",
                    statusCode := 0, details := none, cause := .marshalErr }), dest, 0⟩ := by
  unfold executeRequest
  simp [hj, hm]

/-- C2 (amended): serializing an unserializable body yields the
validation-kind error and never issues a network request — but the failure
is not short-circuited: the validation error carries status code 0, which
escapes the 4xx no-retry check, so the marshal failure is re-attempted
through all `maxRetries + 1` iterations (with backoff waits) before the
error surfaces. -/
theorem c2_marshal_failure_validation_no_network {D : Type} (c : HttpClient)
    (ctx : Ctx) (env : ReqEnv D) (path : String) (dest : Option D)
    (hj : env.joinOk = true) (hm : env.marshal = some none)
    (hcancel : ∀ i, ¬ ctx.cancelDuringWait i = true) :
    (doRequest c ctx env path dest).err =
      some (.err { code := .validation, message := "failed to marshal request body",
                   statusCode := 0, details := none, cause := .marshalErr }) ∧
    (doRequest c ctx env path dest).netCalls = 0 ∧
    (doRequest c ctx env path dest).attempts = c.maxRetries + 1 := by
  have hexec := fun a => executeRequest_marshal_fail env path a dest hj hm
  have hfail : ∀ i, i ≤ c.maxRetries → retryableFailure env path dest i := by
    intro i _
    refine ⟨.err { code := .validation, message := "failed to marshal request body",
                   statusCode := 0, details := none, cause := .marshalErr }, ?_, by decide⟩
    rw [attemptErr, hexec i]
  rw [doRequest_all_fail c ctx env path dest hfail hcancel]
  refine ⟨?_, ?_, rfl⟩
  · show attemptErr env path dest c.maxRetries = _
    rw [attemptErr, hexec c.maxRetries]
  · show netSeg env path dest 0 (c.maxRetries + 1) = 0
    simp [netSeg, hexec]

/-- C2 witness (for the amended claim): the concrete transport built by
`newHTTPClient` with a marshal-failing body returns the validation error,
performs no network send, and runs 4 attempts. -/
theorem c2_marshal_failure_validation_no_network_witness :
    (doRequest (newHTTPClient "https://api.whook.town") noCancel envMarshalFail "/p"
        (none : Option Unit)).err =
      some (.err { code := .validation, message := "failed to marshal request body",
                   statusCode := 0, details := none, cause := .marshalErr }) ∧
    (doRequest (newHTTPClient "https://api.whook.town") noCancel envMarshalFail "/p"
        (none : Option Unit)).netCalls = 0 ∧
    (doRequest (newHTTPClient "https://api.whook.town") noCancel envMarshalFail "/p"
        (none : Option Unit)).attempts = 4 :=
  c2_marshal_failure_validation_no_network (newHTTPClient "https://api.whook.town")
    noCancel envMarshalFail "/p" (none : Option Unit) rfl rfl (fun i => by simp [noCancel])

/-- C2 counterexample: the claim as stated — exactly one attempt and no
backoff wait on a marshal failure — is false at this concrete input: the
transport makes 4 attempts and sleeps 1s, 2s and 3s (while indeed never
touching the network). -/
theorem c2_marshal_failure_is_retried_eval :
    (doRequest (newHTTPClient "https://api.whook.town") noCancel envMarshalFail "/p"
        (none : Option Unit)).attempts = 4 ∧
    (doRequest (newHTTPClient "https://api.whook.town") noCancel envMarshalFail "/p"
        (none : Option Unit)).waits = [timeSecond, 2 * timeSecond, 3 * timeSecond] :=
  ⟨by decide, by decide⟩

/-! ## Spec-side characterizations of the error classifier -/

/-- Modelled from the spec: the status-code-to-kind mapping of §4.2 step 5,
written from the spec tables, to be compared with the classifier. -/
def specKindForStatus (s : Int) : ErrorCode :=
  if s = 401 then .unauthorized
  else if s = 403 then .forbidden
  else if s = 404 then .notFound
  else if s = 400 then .badRequest
  else if s = 402 then .quotaExceeded
  else .internalServer

/-- Modelled from the spec: the per-kind default message of §4.2 step 5. -/
def specDefaultMessage (s : Int) : String :=
  if s = 401 then "unauthorized"
  else if s = 403 then "forbidden"
  else if s = 404 then "not found"
  else if s = 400 then "bad request"
  else if s = 402 then "quota exceeded"
  else "server error: " ++ toString s

/-- Modelled from the spec: the message extracted from the body before any
default is applied — `message` over `error` over blank on a successful
parse, the raw body text on a failed parse (blank for an empty body). -/
def specExtractedMessage (b : GoBody) : String :=
  match goUnmarshalErrResp b with
  | some er => if er.message ≠ "" then er.message
               else if er.error ≠ "" then er.error else ""
  | none => b.raw

/-- The body resolves as a quota-code match (spec §4.2 step 3). -/
def quotaResolved (b : GoBody) : Prop :=
  ∃ er, goUnmarshalErrResp b = some er ∧
    (er.code = "QUOTA_EXCEEDED" ∨ er.code = "ASSET_QUOTA_EXCEEDED" ∨
     er.code = "LAYOUT_QUOTA_EXCEEDED")

/-- Field-by-field description of the `switch statusCode` epilogue. -/
theorem statusDefault_spec (e : Error) (s : Int) :
    (statusDefault e s).code = specKindForStatus s ∧
    (statusDefault e s).statusCode = e.statusCode ∧
    (statusDefault e s).details = e.details ∧
    (statusDefault e s).cause = e.cause ∧
    (statusDefault e s).message =
      (if e.message = "" then specDefaultMessage s else e.message) := by
  unfold statusDefault specKindForStatus specDefaultMessage
  split_ifs <;> simp_all

/-- The classifier on a body that does not resolve as a quota match:
the generic error, with the extracted message fed into the status switch
and the decoded `details` attached. -/
theorem parseHTTPError_generic (s : Int) (b : GoBody) (h : ¬ quotaResolved b) :
    parseHTTPError s b =
      .err (statusDefault
        { code := .internalServer, message := specExtractedMessage b, statusCode := s,
          details := (goUnmarshalErrResp b).bind (fun er => er.details) } s) := by
  cases hb : goUnmarshalErrResp b with
  | none =>
    simp only [parseHTTPError, hb, specExtractedMessage, Option.bind]
    by_cases hr : b.raw = "" <;> simp [hr]
  | some er =>
    have hnq : ¬ (er.code = "QUOTA_EXCEEDED" ∨ er.code = "ASSET_QUOTA_EXCEEDED" ∨
        er.code = "LAYOUT_QUOTA_EXCEEDED") := fun hq => h ⟨er, hb, hq⟩
    simp only [parseHTTPError, hb, specExtractedMessage, Option.bind, if_neg hnq]

/-- The classifier on a body that resolves as a quota match: the
specialized quota error with the independently-defaulting field
extractions. -/
theorem parseHTTPError_quota_branch (s : Int) (b : GoBody) (er : ErrResp)
    (hp : goUnmarshalErrResp b = some er)
    (hq : er.code = "QUOTA_EXCEEDED" ∨ er.code = "ASSET_QUOTA_EXCEEDED" ∨
          er.code = "LAYOUT_QUOTA_EXCEEDED") :
    parseHTTPError s b = .quota
      { code := .quotaExceeded,
        message := if er.message ≠ "" then er.message
                   else if er.error ≠ "" then er.error else "",
        statusCode := s,
        plan := match er.details.bind (fun ds => jLookup ds "plan") with
          | some (.str p) => p
          | _ => "",
        current := match er.details.bind (fun ds => jLookup ds "current") with
          | some (.num q) => truncQ q
          | _ => 0,
        limit := match er.details.bind (fun ds => jLookup ds "limit") with
          | some (.num q) => truncQ q
          | _ => 0,
        quotaType := match er.details.bind (fun ds => jLookup ds "type") with
          | some (.str t) => t
          | _ => "" } := by
  simp only [parseHTTPError, hp, if_pos hq]
  cases hd : er.details with
  | none => simp [hd]
  | some ds =>
    simp only [hd, Option.bind]
    (repeat' split) <;> simp_all

/-- The quota example body of the spec: a 402 with
`code: "ASSET_QUOTA_EXCEEDED"` and
`details: \x7bplan:"free", current:5, limit:5, type:"assets"\x7d`. -/
def bodyQuotaExample : GoBody :=
  .json (.obj [("code", .str "ASSET_QUOTA_EXCEEDED"),
    ("details", .obj [("plan", .str "free"), ("current", .num 5),
      ("limit", .num 5), ("type", .str "assets")])])

/-- C5: for every body whose decoded `code` equals one of the three quota
codes, the classifier returns the specialized quota error carrying the
extracted message and the status, with `Plan`, `Current`, `Limit`,
`QuotaType` extracted from `details` (numerics truncated toward zero),
each field independently defaulting to its zero value when absent or of
the wrong dynamic type. -/
theorem c5_quota_details_extraction (s : Int) (b : GoBody) (er : ErrResp)
    (hp : goUnmarshalErrResp b = some er)
    (hq : er.code = "QUOTA_EXCEEDED" ∨ er.code = "ASSET_QUOTA_EXCEEDED" ∨
          er.code = "LAYOUT_QUOTA_EXCEEDED") :
    parseHTTPError s b = .quota
      { code := .quotaExceeded,
        message := if er.message ≠ "" then er.message
                   else if er.error ≠ "" then er.error else "",
        statusCode := s,
        plan := match er.details.bind (fun ds => jLookup ds "plan") with
          | some (.str p) => p
          | _ => "",
        current := match er.details.bind (fun ds => jLookup ds "current") with
          | some (.num q) => truncQ q
          | _ => 0,
        limit := match er.details.bind (fun ds => jLookup ds "limit") with
          | some (.num q) => truncQ q
          | _ => 0,
        quotaType := match er.details.bind (fun ds => jLookup ds "type") with
          | some (.str t) => t
          | _ => "" } :=
  parseHTTPError_quota_branch s b er hp hq

/-- C5 witness: the spec's example — a 402 with `ASSET_QUOTA_EXCEEDED` and
`details \x7bplan:"free", current:5, limit:5, type:"assets"\x7d` — yields the
specialized quota error with `Plan="free", Current=5, Limit=5,
QuotaType="assets"`. -/
theorem c5_quota_details_extraction_witness :
    parseHTTPError 402 bodyQuotaExample = .quota
      { code := .quotaExceeded, message := "", statusCode := 402,
        plan := "free", current := 5, limit := 5, quotaType := "assets" } :=
  (c5_quota_details_extraction 402 bodyQuotaExample
    { message := "", error := "", code := "ASSET_QUOTA_EXCEEDED",
      details := some [("plan", .str "free"), ("current", .num 5),
        ("limit", .num 5), ("type", .str "assets")] }
    (by rfl) (Or.inr (Or.inl rfl))).trans (by rfl)

/-- C6: when the body does not resolve as a quota-code match, the
classifier returns the generic error whose kind is exactly the one the
status determines (401→unauthorized, 403→forbidden, 404→not-found,
400→bad-request, 402→quota-exceeded, anything else→internal-server),
preserving the status, and whose message is the kind's default exactly
when no message was extracted from the body, and the extracted message
otherwise. -/
theorem c6_status_kind_mapping (s : Int) (b : GoBody) (h : ¬ quotaResolved b) :
    ∃ e, parseHTTPError s b = .err e ∧
      e.code = specKindForStatus s ∧
      e.statusCode = s ∧
      (specExtractedMessage b = "" → e.message = specDefaultMessage s) ∧
      (specExtractedMessage b ≠ "" → e.message = specExtractedMessage b) := by
  refine ⟨_, parseHTTPError_generic s b h, (statusDefault_spec _ s).1,
    (statusDefault_spec _ s).2.1, ?_, ?_⟩
  · intro hm
    rw [(statusDefault_spec _ s).2.2.2.2]
    exact if_pos hm
  · intro hm
    rw [(statusDefault_spec _ s).2.2.2.2]
    exact if_neg hm

/-- C6 witness: a 404 with an empty body yields the not-found kind with
its default message "not found". -/
theorem c6_status_kind_mapping_witness :
    ∃ e, parseHTTPError 404 .empty = .err e ∧
      e.code = specKindForStatus 404 ∧
      e.statusCode = 404 ∧
      (specExtractedMessage .empty = "" → e.message = specDefaultMessage 404) ∧
      (specExtractedMessage .empty ≠ "" → e.message = specExtractedMessage .empty) :=
  c6_status_kind_mapping 404 .empty
    (by rintro ⟨er, her, _⟩; simp [goUnmarshalErrResp] at her)

/-- C7: for every status ≥ 400 the classifier returns exactly one error
value, and it is the specialized quota variant precisely when the body
decodes with a quota `code`; when it does not — in particular for a 402
without such a `code` — the result is the generic variant, which for 402
carries the quota-exceeded kind.  The sum type of the result makes the two
variants mutually exclusive for any single failure. -/
theorem c7_quota_variant_iff (s : Int) (b : GoBody) (h : 400 ≤ s) :
    ((∃ q, parseHTTPError s b = .quota q) ↔ quotaResolved b) ∧
    (¬ quotaResolved b → ∃ e, parseHTTPError s b = .err e ∧ e.statusCode = s ∧
      (s = 402 → e.code = .quotaExceeded)) := by
  constructor
  · constructor
    · rintro ⟨q, hq⟩
      by_contra hnq
      rw [parseHTTPError_generic s b hnq] at hq
      cases hq
    · rintro ⟨er, hp, hcode⟩
      exact ⟨_, parseHTTPError_quota_branch s b er hp hcode⟩
  · intro hnq
    refine ⟨_, parseHTTPError_generic s b hnq, (statusDefault_spec _ s).2.1, ?_⟩
    intro h402
    rw [(statusDefault_spec _ s).1, h402]
    rfl

/-- C7 witness: at a 402 whose body is an empty JSON object (no `code`
field), the equivalence is instantiated; its right side is false, so the
result is not the specialized struct. -/
theorem c7_quota_variant_iff_witness :
    ((∃ q, parseHTTPError 402 (.json (.obj [])) = .quota q) ↔
      quotaResolved (.json (.obj []))) ∧
    (¬ quotaResolved (.json (.obj [])) →
      ∃ e, parseHTTPError 402 (.json (.obj [])) = .err e ∧ e.statusCode = 402 ∧
        (402 = (402 : Int) → e.code = .quotaExceeded)) :=
  c7_quota_variant_iff 402 (.json (.obj [])) (by decide)

/-- C8: the classifier never fails on a malformed body: if the parse
fails and the body is non-empty the raw text becomes the message; if the
body is empty the status default fills in; on a successful parse the
message precedence is `message` over `error` over the status default. -/
theorem c8_malformed_body_graceful (s : Int) (b : GoBody) :
    (goUnmarshalErrResp b = none → b.raw ≠ "" →
      (parseHTTPError s b).message = b.raw) ∧
    (goUnmarshalErrResp b = none → b.raw = "" →
      (parseHTTPError s b).message = specDefaultMessage s) ∧
    (∀ er, goUnmarshalErrResp b = some er → er.message ≠ "" →
      (parseHTTPError s b).message = er.message) ∧
    (∀ er, goUnmarshalErrResp b = some er → er.message = "" → er.error ≠ "" →
      (parseHTTPError s b).message = er.error) ∧
    (∀ er, goUnmarshalErrResp b = some er → er.message = "" → er.error = "" →
      ¬ quotaResolved b → (parseHTTPError s b).message = specDefaultMessage s) := by
  have hgen : ∀ (hnq : ¬ quotaResolved b),
      (parseHTTPError s b).message =
        (if specExtractedMessage b = "" then specDefaultMessage s
         else specExtractedMessage b) := by
    intro hnq
    rw [parseHTTPError_generic s b hnq]
    simp only [SdkError.message]
    rw [(statusDefault_spec _ s).2.2.2.2]
  refine ⟨?_, ?_, ?_, ?_, ?_⟩
  · intro hb hr
    have hnq : ¬ quotaResolved b := by rintro ⟨er, her, _⟩; rw [hb] at her; cases her
    rw [hgen hnq]
    simp [specExtractedMessage, hb, hr]
  · intro hb hr
    have hnq : ¬ quotaResolved b := by rintro ⟨er, her, _⟩; rw [hb] at her; cases her
    rw [hgen hnq]
    simp [specExtractedMessage, hb, hr]
  · intro er hp hm
    by_cases hq : er.code = "QUOTA_EXCEEDED" ∨ er.code = "ASSET_QUOTA_EXCEEDED" ∨
        er.code = "LAYOUT_QUOTA_EXCEEDED"
    · rw [parseHTTPError_quota_branch s b er hp hq]
      simp [SdkError.message, hm]
    · have hnq : ¬ quotaResolved b := by
        rintro ⟨er2, hp2, hq2⟩
        rw [hp] at hp2
        injection hp2 with h2
        subst h2
        exact hq hq2
      rw [hgen hnq]
      simp [specExtractedMessage, hp, hm]
  · intro er hp hm he
    by_cases hq : er.code = "QUOTA_EXCEEDED" ∨ er.code = "ASSET_QUOTA_EXCEEDED" ∨
        er.code = "LAYOUT_QUOTA_EXCEEDED"
    · rw [parseHTTPError_quota_branch s b er hp hq]
      simp [SdkError.message, hm, he]
    · have hnq : ¬ quotaResolved b := by
        rintro ⟨er2, hp2, hq2⟩
        rw [hp] at hp2
        injection hp2 with h2
        subst h2
        exact hq hq2
      rw [hgen hnq]
      simp [specExtractedMessage, hp, hm, he]
  · intro er hp hm he hnq
    rw [hgen hnq]
    simp [specExtractedMessage, hp, hm, he]

/-- C8 witness: a 500 whose body is the non-JSON text "boom" classifies
without failing, carrying "boom" as the message. -/
theorem c8_malformed_body_graceful_witness :
    (parseHTTPError 500 (.text "boom")).message = "boom" :=
  (c8_malformed_body_graceful 500 (.text "boom")).1 rfl (by decide)

/-- A server that replies 204 with an empty body, with a decoder that
would change the destination if it were ever invoked. -/
def env204 : ReqEnv Nat :=
  { net := fun _ => .resp 204 .empty, dec := fun _ n => some (n + 1) }

/-- C9: a successful response (status < 400) with an empty body and a
non-nil destination returns nil error after a single attempt and leaves
the destination value completely unmodified — the decoder is never
invoked. -/
theorem c9_empty_body_dest_untouched {D : Type} (c : HttpClient) (ctx : Ctx)
    (env : ReqEnv D) (path : String) (d : D) (s : Int)
    (hj : env.joinOk = true) (hm : env.marshal ≠ some none)
    (hnr : env.newReqOk = true) (hnet : env.net 0 = .resp s .empty)
    (hs : s < 400) :
    (doRequest c ctx env path (some d)).err = none ∧
    (doRequest c ctx env path (some d)).dest = some d ∧
    (doRequest c ctx env path (some d)).attempts = 1 ∧
    (doRequest c ctx env path (some d)).waits = [] := by
  have hexec : executeRequest env path 0 (some d) = ⟨none, some d, 1⟩ := by
    unfold executeRequest
    simp [hj, hm, hnr, hnet, GoBody.raw, show ¬ (400 ≤ s) from by omega]
  have hmain : doRequest c ctx env path (some d) = ⟨none, some d, 1, 1, []⟩ := by
    unfold doRequest
    conv_lhs => rw [doRequestFrom]
    rw [if_neg (by simp)]
    simp [hexec]
  rw [hmain]
  exact ⟨rfl, rfl, rfl, rfl⟩

/-- C9 witness: a 204 with empty body and destination value 7 returns no
error and leaves the destination at 7 even though the supplied decoder
would have incremented it. -/
theorem c9_empty_body_dest_untouched_witness :
    (doRequest (newHTTPClient "https://api.whook.town") noCancel env204 "/x"
        (some 7)).err = none ∧
    (doRequest (newHTTPClient "https://api.whook.town") noCancel env204 "/x"
        (some 7)).dest = some 7 ∧
    (doRequest (newHTTPClient "https://api.whook.town") noCancel env204 "/x"
        (some 7)).attempts = 1 ∧
    (doRequest (newHTTPClient "https://api.whook.town") noCancel env204 "/x"
        (some 7)).waits = [] :=
  c9_empty_body_dest_untouched (newHTTPClient "https://api.whook.town") noCancel env204
    "/x" 7 204 rfl (by decide) rfl rfl (by decide)

/-- C10: every transport `newHTTPClient` produces carries the hard-coded
retry policy `maxRetries = 3`, `retryWait = 1s`; `WithRetry` touches only
the configuration's `MaxRetries`/`RetryWait` fields; and no matter what
options are applied (any `WithRetry`, any direct `Config` mutation
included), every service transport the client constructor builds still
carries `maxRetries = 3` and `retryWait = 1s` — the configured retry
settings never reach a transport. -/
theorem c10_transport_retry_policy_fixed :
    (∀ baseURL : String, (newHTTPClient baseURL).maxRetries = 3 ∧
      (newHTTPClient baseURL).retryWait = timeSecond) ∧
    (∀ (m w : Int) (cfg : Config),
      WithRetry m w cfg = { cfg with maxRetries := m, retryWait := w }) ∧
    (∀ (env : Env) (opts : List (Config → Config)),
      ((New env opts).auth.maxRetries = 3 ∧ (New env opts).auth.retryWait = timeSecond) ∧
      ((New env opts).sensors.maxRetries = 3 ∧ (New env opts).sensors.retryWait = timeSecond) ∧
      ((New env opts).ui.maxRetries = 3 ∧ (New env opts).ui.retryWait = timeSecond) ∧
      ((New env opts).camera.maxRetries = 3 ∧ (New env opts).camera.retryWait = timeSecond) ∧
      ((New env opts).traffic.maxRetries = 3 ∧ (New env opts).traffic.retryWait = timeSecond) ∧
      ((New env opts).popup.maxRetries = 3 ∧ (New env opts).popup.retryWait = timeSecond) ∧
      ((New env opts).groups.maxRetries = 3 ∧ (New env opts).groups.retryWait = timeSecond) ∧
      ((New env opts).workflow.maxRetries = 3 ∧ (New env opts).workflow.retryWait = timeSecond) ∧
      ((New env opts).backoffice.maxRetries = 3 ∧ (New env opts).backoffice.retryWait = timeSecond)) :=
  ⟨fun _ => ⟨rfl, rfl⟩, fun _ _ _ => rfl,
   fun _ _ => ⟨⟨rfl, rfl⟩, ⟨rfl, rfl⟩, ⟨rfl, rfl⟩, ⟨rfl, rfl⟩, ⟨rfl, rfl⟩,
     ⟨rfl, rfl⟩, ⟨rfl, rfl⟩, ⟨rfl, rfl⟩, ⟨rfl, rfl⟩⟩⟩

end Whooktown
